import Mathlib

/-
Verification of the NeuroOil training-progress pipeline (frontend client side).

The definitions below are shallow embeddings of the TypeScript source:
  - the progress-tick data model from frontend/src/utils/api.ts
    (interfaces TrainingProgress, CorrelationData, FeatureImportance);
  - the Reconciler merge step from frontend/src/pages/TrainingPage.tsx
    (the setProgressHistory updater in the progress effect);
  - the stream-session frame handling from
    frontend/src/utils/api.ts (subscribeToTrainingProgress) combined with
    frontend/src/hooks/useTrainingProgress.ts;
  - the Snapshot Store from frontend/src/utils/localStorage.ts
    (saveTrainingData, loadTrainingData, updateTrainingData);
  - the prediction display policy from components/PredictionSliders.tsx.

JavaScript numbers are modelled as rationals (no arithmetic is performed on
them by the code under verification, only equality and order comparisons);
epochs and millisecond timestamps as naturals.
-/

/-- Embeds the `metrics` object of a tick: `{r2, mae, mse, rmse}`
(interface TrainingProgress in api.ts). -/
structure MetricsSummary where
  r2 : ℚ
  mae : ℚ
  mse : ℚ
  rmse : ℚ
deriving DecidableEq, Repr

/-- Embeds interface FeatureImportance of api.ts: `{importance, std}`. -/
structure FeatureImportanceEntry where
  importance : ℚ
  std : ℚ
deriving DecidableEq, Repr

/-- Embeds interface CorrelationData of api.ts: a list of points (each point a
record of named numeric fields, always including debit_oil) together with a
correlation coefficient. -/
structure CorrelationData where
  points : List (List (String × ℚ))
  correlation_coefficient : ℚ
deriving DecidableEq, Repr

/-- The `correlation_data` field of a tick has union type
`CorrelationData | Record<string, CorrelationData>` (api.ts): either a single
payload or a mapping from feature name to payload. -/
inductive CorrelationPayload where
  | single (c : CorrelationData)
  | byFeature (entries : List (String × CorrelationData))
deriving DecidableEq, Repr

/-- Embeds interface TrainingProgress of api.ts — one progress tick. -/
structure TrainingProgress where
  epoch : ℕ
  loss : ℚ
  val_loss : ℚ
  mae : ℚ
  val_mae : ℚ
  status : String
  metrics : Option MetricsSummary := none
  feature_importance : Option (List (String × FeatureImportanceEntry)) := none
  correlation_data : Option CorrelationPayload := none
  error : Option String := none
deriving DecidableEq, Repr

/-- A minimal tick with the given epoch and loss, used for concrete scenarios;
the remaining numeric fields are zero and the status is "training". -/
def mkTick (e : ℕ) (l : ℚ) : TrainingProgress :=
  { epoch := e, loss := l, val_loss := 0, mae := 0, val_mae := 0,
    status := "training" }

/-- The Reconciler merge step, from the setProgressHistory updater in
TrainingPage.tsx lines 17-23: look the incoming epoch up with `find`; when an
entry with that epoch exists, `map` over the history replacing every entry of
that epoch with the incoming tick (in place); otherwise spread-append the tick
at the end of the array. -/
def mergeTick (prev : List TrainingProgress) (progress : TrainingProgress) :
    List TrainingProgress :=
  match prev.find? (fun p => p.epoch == progress.epoch) with
  | some _ => prev.map (fun p => if p.epoch == progress.epoch then progress else p)
  | none => prev ++ [progress]

/-- The epochs of a history, in order of appearance. -/
def historyEpochs (h : List TrainingProgress) : List ℕ :=
  h.map TrainingProgress.epoch

/-- Concrete ticks for the epochs-[0,1,2,1] replay scenario of the spec. -/
def tickE0 : TrainingProgress := mkTick 0 100

def tickE1 : TrainingProgress := mkTick 1 90

def tickE2 : TrainingProgress := mkTick 2 80

/-- The fourth tick of the scenario: a second, later tick for epoch 1 with
different field values. -/
def tickE1Late : TrainingProgress := mkTick 1 85

/-- History obtained by folding the merge over ticks with epochs 0, 1, 2, 1. -/
def replayHistory : List TrainingProgress :=
  mergeTick (mergeTick (mergeTick (mergeTick [] tickE0) tickE1) tickE2) tickE1Late

lemma mergeTick_of_mem (prev : List TrainingProgress) (t : TrainingProgress)
    (h : t.epoch ∈ historyEpochs prev) :
    mergeTick prev t = prev.map (fun p => if p.epoch == t.epoch then t else p) := by
  obtain ⟨p, hp, he⟩ := List.mem_map.mp h
  cases hfind : prev.find? (fun q => q.epoch == t.epoch) with
  | some q => simp [mergeTick, hfind]
  | none =>
      exact absurd (by simpa using he) (by simpa using List.find?_eq_none.mp hfind p hp)

lemma mergeTick_of_not_mem (prev : List TrainingProgress) (t : TrainingProgress)
    (h : t.epoch ∉ historyEpochs prev) :
    mergeTick prev t = prev ++ [t] := by
  cases hfind : prev.find? (fun q => q.epoch == t.epoch) with
  | some q =>
      have hq : q ∈ prev := List.mem_of_find?_eq_some hfind
      have hqe : q.epoch = t.epoch := by simpa using List.find?_some hfind
      exact absurd (List.mem_map.mpr ⟨q, hq, hqe⟩) h
  | none => simp [mergeTick, hfind]

lemma epochs_mergeTick_of_mem (prev : List TrainingProgress) (t : TrainingProgress)
    (h : t.epoch ∈ historyEpochs prev) :
    historyEpochs (mergeTick prev t) = historyEpochs prev := by
  rw [mergeTick_of_mem prev t h]
  unfold historyEpochs
  rw [List.map_map]
  refine List.map_congr_left ?_
  intro p _
  by_cases hpe : p.epoch = t.epoch <;> simp [Function.comp, hpe]

/-- C1 counterexample: starting from the empty history, a tick with epoch 2
followed by a tick with epoch 1 leaves the history with epochs [2, 1] — the
merge step appends new epochs at the end and never re-sorts, so the history is
not sorted by ascending epoch. -/
theorem merge_out_of_order_unsorted :
    ¬ List.Sorted (fun a b => a < b)
        (historyEpochs (mergeTick (mergeTick [] (mkTick 2 0)) (mkTick 1 0))) := by
  decide

/-- C1 (amended): the merge step replaces in place when the incoming epoch is
already present (the epoch sequence, hence every position, is preserved, and
every entry carrying that epoch becomes the incoming tick); when the epoch is
new, the tick is appended at the END of the history, not inserted at the sorted
position; consequently ascending-epoch sortedness is preserved only when the
incoming epoch is at least every epoch already present — out-of-order arrival
of a new smaller epoch produces an unsorted history. -/
theorem mergeTick_replace_append_spec (prev : List TrainingProgress)
    (t : TrainingProgress) :
    (t.epoch ∈ historyEpochs prev →
        historyEpochs (mergeTick prev t) = historyEpochs prev
      ∧ ∀ p ∈ mergeTick prev t, p.epoch = t.epoch → p = t)
  ∧ (t.epoch ∉ historyEpochs prev → mergeTick prev t = prev ++ [t])
  ∧ (List.Sorted (fun a b => a < b) (historyEpochs prev) →
      (∀ e ∈ historyEpochs prev, e ≤ t.epoch) →
      List.Sorted (fun a b => a < b) (historyEpochs (mergeTick prev t))) := by
  refine ⟨fun hmem => ⟨epochs_mergeTick_of_mem prev t hmem, ?_⟩,
    fun hnot => mergeTick_of_not_mem prev t hnot, fun hsort hle => ?_⟩
  · intro p hp hpe
    rw [mergeTick_of_mem prev t hmem] at hp
    obtain ⟨q, hq, rfl⟩ := List.mem_map.mp hp
    by_cases hqe : q.epoch = t.epoch
    · simp [hqe]
    · simp only [beq_iff_eq, hqe, if_false] at hpe ⊢
  · by_cases hmem : t.epoch ∈ historyEpochs prev
    · rw [epochs_mergeTick_of_mem prev t hmem]
      exact hsort
    · rw [mergeTick_of_not_mem prev t hmem]
      have hepochs : historyEpochs (prev ++ [t]) = historyEpochs prev ++ [t.epoch] := by
        simp [historyEpochs]
      rw [hepochs]
      refine List.pairwise_append.mpr ⟨hsort, List.pairwise_singleton _ _, ?_⟩
      intro x hx y hy
      rcases List.mem_singleton.mp hy with rfl
      exact lt_of_le_of_ne (hle x hx) (fun hxe => hmem (hxe ▸ hx))

/-- Witness for C1 (amended): a tick with fresh epoch 1 is appended after the
existing epoch-0 entry. -/
theorem mergeTick_replace_append_spec_witness :
    mergeTick [mkTick 0 0] (mkTick 1 0) = [mkTick 0 0] ++ [mkTick 1 0] :=
  (mergeTick_replace_append_spec [mkTick 0 0] (mkTick 1 0)).2.1 (by decide)

/-- C2: the Reconciler merge step is idempotent — merging the same tick twice
yields the same history as merging it once. -/
theorem mergeTick_idempotent (prev : List TrainingProgress) (t : TrainingProgress) :
    mergeTick (mergeTick prev t) t = mergeTick prev t := by
  by_cases hmem : t.epoch ∈ historyEpochs prev
  · rw [mergeTick_of_mem prev t hmem]
    have hmem2 : t.epoch ∈ historyEpochs
        (prev.map (fun p => if p.epoch == t.epoch then t else p)) := by
      obtain ⟨p, hp, he⟩ := List.mem_map.mp hmem
      refine List.mem_map.mpr ⟨t, List.mem_map.mpr ⟨p, hp, ?_⟩, rfl⟩
      simp [he]
    rw [mergeTick_of_mem _ t hmem2, List.map_map]
    refine List.map_congr_left ?_
    intro p _
    by_cases hpe : p.epoch = t.epoch <;> simp [Function.comp, hpe]
  · rw [mergeTick_of_not_mem prev t hmem]
    have hmem2 : t.epoch ∈ historyEpochs (prev ++ [t]) := by
      simp [historyEpochs]
    rw [mergeTick_of_mem _ t hmem2, List.map_append, List.map_singleton]
    simp only [beq_self_eq_true, if_true]
    congr 1
    have hid : List.map (fun p => if p.epoch == t.epoch then t else p) prev
        = List.map id prev := by
      refine List.map_congr_left ?_
      intro p hp
      have hpe : p.epoch ≠ t.epoch := fun he =>
        hmem (List.mem_map.mpr ⟨p, hp, he⟩)
      simp [hpe]
    rw [hid, List.map_id]

/-- C3: folding the merge over four ticks whose epochs arrive in the order
[0, 1, 2, 1] yields a history of exactly 3 entries, with epochs ordered
[0, 1, 2], whose epoch-1 entry carries the values of the last (fourth) tick. -/
theorem merge_epochs_0121_replay :
    replayHistory.length = 3
  ∧ historyEpochs replayHistory = [0, 1, 2]
  ∧ replayHistory.find? (fun p => p.epoch == 1) = some tickE1Late := by
  decide

/-- A frame arriving on the EventSource, as handled by
subscribeToTrainingProgress in api.ts: a named progress event or message whose
JSON payload parses to a tick, one whose payload fails to parse (the catch
branch of the handlers), or a transport-level error delivered to onerror. -/
inductive StreamFrame where
  | tick (t : TrainingProgress)
  | malformed (raw : String)
  | transportFault
deriving DecidableEq, Repr

/-- Terminal-status test used by both handlers in api.ts and by TrainingPage:
`progress.status === 'completed' || progress.status === 'error'`. -/
def statusIsTerminal (s : String) : Bool :=
  s == "completed" || s == "error"

/-- Client-side state of one subscription: whether eventSource.close() has been
called, the reconciled progressHistory of TrainingPage, the `progress` value of
useTrainingProgress (last parsed tick), and its `error` value. -/
structure SessionState where
  closed : Bool
  history : List TrainingProgress
  lastProgress : Option TrainingProgress
  streamError : Option String
deriving DecidableEq, Repr

/-- One frame step of the subscription, combining the handlers of
subscribeToTrainingProgress (api.ts) with the state updates they trigger in
useTrainingProgress and TrainingPage. A closed EventSource dispatches no
events, so the state is unchanged. A parsed tick is delivered to onProgress —
setProgress(newProgress) and setError(null) in the hook, then the TrainingPage
effect merges it into progressHistory — and the source is closed exactly when
the tick has terminal status. A malformed payload or a transport fault invokes
onError, which records the error and deliberately does not close the source
and does not touch progress or history. -/
def processFrame (s : SessionState) (f : StreamFrame) : SessionState :=
  if s.closed then s
  else
    match f with
    | .tick t =>
        { closed := statusIsTerminal t.status,
          history := mergeTick s.history t,
          lastProgress := some t,
          streamError := none }
    | .malformed _ => { s with streamError := some "Error parsing SSE data" }
    | .transportFault => { s with streamError := some "SSE connection error" }

/-- Folding a whole sequence of incoming frames through the session. -/
def processFrames (s : SessionState) (fs : List StreamFrame) : SessionState :=
  fs.foldl processFrame s

/-- The initial state of a fresh subscription. -/
def initialSession : SessionState :=
  { closed := false, history := [], lastProgress := none, streamError := none }

lemma processFrame_of_closed (s : SessionState) (f : StreamFrame)
    (h : s.closed = true) : processFrame s f = s := by
  simp [processFrame, h]

lemma processFrames_of_closed (s : SessionState) (fs : List StreamFrame)
    (h : s.closed = true) : processFrames s fs = s := by
  induction fs with
  | nil => rfl
  | cons f fs ih =>
      show processFrames (processFrame s f) fs = s
      rw [processFrame_of_closed s f h, ih]

/-- C4: once a terminal tick (status completed or error) has been merged, no
further frame changes the history — the handlers close the EventSource on the
terminal tick, a closed source dispatches nothing, and hence the merge step is
never invoked again: after the terminal tick the history stays exactly
mergeTick of the previous history and that tick, whatever frames follow. -/
theorem terminal_tick_freezes_history (s : SessionState) (t : TrainingProgress)
    (hopen : s.closed = false) (hterm : statusIsTerminal t.status = true)
    (fs : List StreamFrame) :
    (processFrames (processFrame s (StreamFrame.tick t)) fs).history
      = mergeTick s.history t := by
  have hstep : processFrame s (StreamFrame.tick t)
      = { closed := statusIsTerminal t.status, history := mergeTick s.history t,
          lastProgress := some t, streamError := none } := by
    simp [processFrame, hopen]
  rw [hstep, processFrames_of_closed _ fs (by simpa using hterm)]

/-- A terminal completed tick, for concrete scenarios. -/
def tickDone : TrainingProgress := { mkTick 3 50 with status := "completed" }

/-- Witness for C4: after the completed tick at epoch 3, a later epoch-4 tick
does not change the history. -/
theorem terminal_tick_freezes_history_witness :
    (processFrames (processFrame initialSession (StreamFrame.tick tickDone))
        [StreamFrame.tick (mkTick 4 0)]).history
      = mergeTick initialSession.history tickDone :=
  terminal_tick_freezes_history initialSession tickDone rfl (by decide)
    [StreamFrame.tick (mkTick 4 0)]

/-- C8: for every sequence of incoming frames on a fresh (open) session, the
EventSource ends up closed if and only if some frame parsed to a tick with
terminal status (completed or error); in particular neither the onerror
handler for transport faults nor the parse-failure catch branch ever closes
the session. -/
theorem session_closed_iff_terminal_tick (s : SessionState)
    (hopen : s.closed = false) (fs : List StreamFrame) :
    (processFrames s fs).closed = true
      ↔ ∃ t, StreamFrame.tick t ∈ fs ∧ statusIsTerminal t.status = true := by
  induction fs generalizing s with
  | nil =>
      simp only [processFrames, List.foldl_nil, List.not_mem_nil, false_and,
        exists_false, iff_false]
      simp [hopen]
  | cons f fs ih =>
      show (processFrames (processFrame s f) fs).closed = true ↔ _
      cases f with
      | tick t =>
          by_cases hterm : statusIsTerminal t.status = true
          · have hclosed : (processFrame s (StreamFrame.tick t)).closed = true := by
              simp [processFrame, hopen, hterm]
            rw [processFrames_of_closed _ fs hclosed]
            exact ⟨fun _ => ⟨t, List.mem_cons_self _ _, hterm⟩, fun _ => hclosed⟩
          · have hterm2 : statusIsTerminal t.status = false := by
              cases hb : statusIsTerminal t.status
              · rfl
              · exact absurd hb hterm
            have hstep : (processFrame s (StreamFrame.tick t)).closed = false := by
              simp [processFrame, hopen, hterm2]
            rw [ih _ hstep]
            constructor
            · rintro ⟨u, hu, htu⟩
              exact ⟨u, List.mem_cons_of_mem _ hu, htu⟩
            · rintro ⟨u, hu, htu⟩
              rcases List.mem_cons.mp hu with heq | hmem
              · simp only [StreamFrame.tick.injEq] at heq
                subst heq
                exact absurd htu hterm
              · exact ⟨u, hmem, htu⟩
      | malformed raw =>
          have hstep : (processFrame s (StreamFrame.malformed raw)).closed = false := by
            simp [processFrame, hopen]
          rw [ih _ hstep]
          constructor
          · rintro ⟨u, hu, htu⟩
            exact ⟨u, List.mem_cons_of_mem _ hu, htu⟩
          · rintro ⟨u, hu, htu⟩
            rcases List.mem_cons.mp hu with heq | hmem
            · exact absurd heq (by simp)
            · exact ⟨u, hmem, htu⟩
      | transportFault =>
          have hstep : (processFrame s StreamFrame.transportFault).closed = false := by
            simp [processFrame, hopen]
          rw [ih _ hstep]
          constructor
          · rintro ⟨u, hu, htu⟩
            exact ⟨u, List.mem_cons_of_mem _ hu, htu⟩
          · rintro ⟨u, hu, htu⟩
            rcases List.mem_cons.mp hu with heq | hmem
            · exact absurd heq (by simp)
            · exact ⟨u, hmem, htu⟩

/-- Witness for C8: a single completed tick closes the fresh session. -/
theorem session_closed_iff_terminal_tick_witness :
    (processFrames initialSession [StreamFrame.tick tickDone]).closed = true :=
  (session_closed_iff_terminal_tick initialSession rfl
      [StreamFrame.tick tickDone]).mpr
    ⟨tickDone, List.mem_singleton.mpr rfl, by decide⟩

/-- C9: on a transport fault or a malformed frame, the error handler records
the error separately (streamError becomes set) and leaves the reconciled state
untouched: both the last known progress value and the accumulated
progressHistory are exactly what they were before the faulty frame. The step
function offers no retry or replay transition — an error frame only sets
streamError. -/
theorem transport_error_preserves_reconciled_state (s : SessionState)
    (hopen : s.closed = false) (f : StreamFrame)
    (hf : f = StreamFrame.transportFault ∨ ∃ raw, f = StreamFrame.malformed raw) :
    (processFrame s f).history = s.history
  ∧ (processFrame s f).lastProgress = s.lastProgress
  ∧ (processFrame s f).streamError.isSome = true := by
  rcases hf with rfl | ⟨raw, rfl⟩ <;> simp [processFrame, hopen]

/-- Witness for C9: a transport fault on the fresh session leaves history and
last progress unchanged and records the error. -/
theorem transport_error_preserves_reconciled_state_witness :
    (processFrame initialSession StreamFrame.transportFault).history
        = initialSession.history
  ∧ (processFrame initialSession StreamFrame.transportFault).lastProgress
        = initialSession.lastProgress
  ∧ (processFrame initialSession StreamFrame.transportFault).streamError.isSome
        = true :=
  transport_error_preserves_reconciled_state initialSession rfl
    StreamFrame.transportFault (Or.inl rfl)

/-- Embeds interface SavedTrainingData of localStorage.ts: the persisted
snapshot record `{progressHistory, correlationData?, finalMetrics?, timestamp}`.
The timestamp is Date.now() milliseconds, modelled as a natural. -/
structure SavedTrainingData where
  progressHistory : List TrainingProgress
  correlationData : Option (List (String × CorrelationData)) := none
  finalMetrics : Option MetricsSummary := none
  timestamp : ℕ
deriving DecidableEq, Repr

/-- The text held in the single localStorage slot. JSON.stringify always
produces text that JSON.parse maps back to the same value, so the stringified
form of a record is modelled as the record itself (valid); corrupt covers any
stored text on which JSON.parse throws. -/
inductive StoredText where
  | valid (data : SavedTrainingData)
  | corrupt (raw : String)
deriving DecidableEq, Repr

/-- The localStorage slot under STORAGE_KEY: empty or holding one text. -/
def StorageSlot : Type := Option StoredText

/-- saveTrainingData of localStorage.ts: spreads the given record, overwrites
its timestamp with Date.now() (passed here explicitly as now), stringifies and
stores it under the fixed key, replacing the slot wholesale. -/
def saveTrainingData (now : ℕ) (data : SavedTrainingData) (_slot : StorageSlot) :
    StorageSlot :=
  some (StoredText.valid { data with timestamp := now })

/-- loadTrainingData of localStorage.ts: getItem on the fixed key; an empty
slot returns null; JSON.parse of corrupt text throws, is caught, and null is
returned; otherwise the parsed record is returned. -/
def loadTrainingData (slot : StorageSlot) : Option SavedTrainingData :=
  match slot with
  | none => none
  | some (StoredText.corrupt _) => none
  | some (StoredText.valid d) => some d

/-- An argument to updateTrainingData: `Partial` of SavedTrainingData — each
field independently present or absent. A present field overrides the base
record under object spread. -/
structure SavedTrainingDataPatch where
  progressHistory : Option (List TrainingProgress) := none
  correlationData : Option (Option (List (String × CorrelationData))) := none
  finalMetrics : Option (Option MetricsSummary) := none
  timestamp : Option ℕ := none
deriving DecidableEq, Repr

/-- Object spread `{...base, ...patch}`: present fields of the patch win,
absent fields keep the base value. -/
def spreadPatch (base : SavedTrainingData) (u : SavedTrainingDataPatch) :
    SavedTrainingData :=
  { progressHistory := u.progressHistory.getD base.progressHistory,
    correlationData := u.correlationData.getD base.correlationData,
    finalMetrics := u.finalMetrics.getD base.finalMetrics,
    timestamp := u.timestamp.getD base.timestamp }

/-- updateTrainingData of localStorage.ts: load; when a record exists, save
`{...existing, ...updates, timestamp: Date.now()}`; when none exists, save
`{progressHistory: [], ...updates, timestamp: Date.now()}` — the patch spread
over a default record whose progressHistory is empty. -/
def updateTrainingData (now : ℕ) (updates : SavedTrainingDataPatch)
    (slot : StorageSlot) : StorageSlot :=
  match loadTrainingData slot with
  | some existing =>
      saveTrainingData now { spreadPatch existing updates with timestamp := now } slot
  | none =>
      saveTrainingData now
        { spreadPatch
            { progressHistory := [], correlationData := none,
              finalMetrics := none, timestamp := now } updates
          with timestamp := now } slot

/-- A concrete snapshot whose own timestamp (0) differs from the save time. -/
def sampleSaved : SavedTrainingData :=
  { progressHistory := [mkTick 0 100], timestamp := 0 }

/-- C5 counterexample: saving sampleSaved (timestamp 0) at time 1 and loading
returns a record whose timestamp is 1, not 0 — save overwrites the timestamp
field with the current time, so the loaded value is not deep-equal to the
saved argument. -/
theorem save_load_changes_timestamp :
    loadTrainingData (saveTrainingData 1 sampleSaved none) ≠ some sampleSaved := by
  decide

/-- C5 (amended): save(x) followed by load() returns a record deep-equal to x
on progressHistory, correlationData and finalMetrics, with the timestamp field
replaced by the time of the save (saveTrainingData spreads x and overwrites
timestamp with Date.now() before storing). -/
theorem save_load_roundtrip_up_to_timestamp (now : ℕ) (x : SavedTrainingData)
    (slot : StorageSlot) :
    loadTrainingData (saveTrainingData now x slot)
      = some { x with timestamp := now } := rfl

/-- C6: loadTrainingData is a total function (it never throws): an empty slot
yields none, corrupt stored text (JSON.parse throws, the catch returns null)
yields none, and a valid stored record — the slot always holds the most
recently saved one, since every save replaces it wholesale — is returned as
is. -/
theorem loadTrainingData_total_spec :
    loadTrainingData none = none
  ∧ (∀ raw, loadTrainingData (some (StoredText.corrupt raw)) = none)
  ∧ (∀ d, loadTrainingData (some (StoredText.valid d)) = some d) :=
  ⟨rfl, fun _ => rfl, fun _ => rfl⟩

/-- C7: updateTrainingData(p) is exactly load-then-merge-then-save: the slot it
produces equals saving (wholesale) the spread of the patch over the loaded
record, or over a default record with empty progressHistory when no record
exists. The timestamp handling washes out because saveTrainingData itself
stamps the stored timestamp with the current time. -/
theorem updateTrainingData_load_merge_save (now : ℕ)
    (updates : SavedTrainingDataPatch) (slot : StorageSlot) :
    updateTrainingData now updates slot
      = saveTrainingData now
          (spreadPatch
            ((loadTrainingData slot).getD
              { progressHistory := [], correlationData := none,
                finalMetrics := none, timestamp := now })
            updates) slot := by
  rcases slot with _ | st
  · rfl
  · rcases st with d | raw <;> rfl

/-- Embeds the result rendering of PredictionSliders.tsx: the main displayed
value is the clamped marker when the prediction is non-positive
(`prediction.prediction <= 0 ? '~0' : prediction.prediction.toFixed(2)`),
and otherwise the value itself, formatted to two decimal places. -/
inductive PredictionDisplay where
  | nearZero
  | exact (value : ℚ)
deriving DecidableEq, Repr

/-- The displayed main value for a prediction response. -/
def renderPredictionValue (p : ℚ) : PredictionDisplay :=
  if p ≤ 0 then PredictionDisplay.nearZero else PredictionDisplay.exact p

/-- Whether PredictionSliders renders the corrected-value note: the conditional
block guarded by `prediction.prediction <= 0`. -/
def renderPredictionCorrected (p : ℚ) : Bool :=
  decide (p ≤ 0)

/-- C10: a non-positive prediction is displayed as the clamped near-zero
marker together with the corrected-value note; a positive prediction is
displayed as the value itself with no note. -/
theorem prediction_clamp_spec (p : ℚ) :
    (p ≤ 0 → renderPredictionValue p = PredictionDisplay.nearZero
      ∧ renderPredictionCorrected p = true)
  ∧ (0 < p → renderPredictionValue p = PredictionDisplay.exact p
      ∧ renderPredictionCorrected p = false) := by
  constructor
  · intro hp
    simp [renderPredictionValue, renderPredictionCorrected, hp]
  · intro hp
    have hnp : ¬ p ≤ 0 := not_le.mpr hp
    simp [renderPredictionValue, renderPredictionCorrected, hnp]

/-- Witness for C10: minus one renders as the near-zero marker with the note;
two renders as itself without the note. -/
theorem prediction_clamp_spec_witness :
    (renderPredictionValue (-1) = PredictionDisplay.nearZero
      ∧ renderPredictionCorrected (-1) = true)
  ∧ (renderPredictionValue 2 = PredictionDisplay.exact 2
      ∧ renderPredictionCorrected 2 = false) :=
  ⟨(prediction_clamp_spec (-1)).1 (by norm_num),
   (prediction_clamp_spec 2).2 (by norm_num)⟩
